import Mathlib

/-!
Verification development for the xspfgen media-playlist generator
(src/xspfgen.py): the bounded-concurrency metadata-harvesting pipeline.

The Python source is shallowly embedded.  Pure computations become Lean
functions; Python exceptions are made explicit as an error type carried
by `Except`; the asyncio scheduling of the semaphore-gated probe tasks
is modelled by a small-step transition system on a pool state; the
external probe process is modelled by the observable behaviour it can
exhibit (spawn failure, timeout, or an exit code together with captured
stdout, the stdout abstracted to the outcome of `json.loads` on it).
Line numbers in the comments refer to src/xspfgen.py.
-/

/-- Python exception kinds that can arise in the embedded fragment. -/
inductive PyError
  | timeoutError
  | jsonDecodeError
  | valueError
  | keyError
  | typeError
  | attributeError
  | zeroDivisionError
  | fileNotFoundError
  | cancelledError
  | keyboardInterrupt
  deriving DecidableEq, Repr

/-- An exact numeric value standing in for a Python float: an integer
numerator over a power-of-ten denominator.  Binary floating-point
rounding is idealized to exact decimal arithmetic; the embedded claims
never depend on the rounding of a binary float. -/
structure PyFloat where
  num : Int
  den : Nat
  deriving DecidableEq, Repr

/-- A value delivered by a successful `json.loads`: a parsed JSON value
as the Python `json` module represents it (JSON `null` becomes Python
`None`, objects become dicts keyed by strings). -/
inductive JVal
  | null
  | bool (b : Bool)
  | num (q : PyFloat)
  | str (s : String)
  | arr (elems : List JVal)
  | obj (fields : List (String × JVal))

/-- Python truthiness of a value taken out of parsed JSON. -/
def pyTruthy : JVal → Bool
  | .null => false
  | .bool b => b
  | .num q => decide (q.num ≠ 0)
  | .str s => decide (s ≠ "")
  | .arr [] => false
  | .arr (_ :: _) => true
  | .obj [] => false
  | .obj (_ :: _) => true

/-- Python `v.get(key, dflt)` on a parsed JSON value: only a JSON object
(a Python `dict`) has a `.get` attribute; calling it on any other value
raises `AttributeError`, exactly as in CPython. -/
def pyGetD (v : JVal) (key : String) (dflt : JVal) : Except PyError JVal :=
  match v with
  | .obj fields =>
    match fields.find? (fun kv => kv.1 == key) with
    | some kv => .ok kv.2
    | none => .ok dflt
  | _ => .error .attributeError

/-- Value of a list of decimal digit characters. -/
def digitsVal (cs : List Char) : Nat :=
  cs.foldl (fun acc c => acc * 10 + (c.toNat - 48)) 0

/-- Model of Python `float(s)` restricted to plain decimal literals
`[+|-] digits [. digits]` — the only shapes the probe tool emits for a
duration; every other string raises `ValueError`, encoded as `none`. -/
def pyFloat? (s : String) : Option PyFloat :=
  let cs := s.data
  let neg : Bool := cs.head? == some '-'
  let body := if cs.head? == some '-' || cs.head? == some '+' then cs.tail else cs
  let ip := body.takeWhile (fun c => c.isDigit)
  let afterIp := body.dropWhile (fun c => c.isDigit)
  let mk : List Char → List Char → PyFloat := fun ipds fpds =>
    let mag : Int := (digitsVal ipds * 10 ^ fpds.length + digitsVal fpds : Nat)
    ⟨if neg then -mag else mag, 10 ^ fpds.length⟩
  if afterIp.isEmpty then
    if ip.isEmpty then none else some (mk ip [])
  else if afterIp.head? == some '.' then
    let frac := afterIp.tail
    let fp := frac.takeWhile (fun c => c.isDigit)
    let afterFp := frac.dropWhile (fun c => c.isDigit)
    if afterFp.isEmpty then
      if ip.isEmpty && fp.isEmpty then none else some (mk ip fp)
    else none
  else none

/-- Python `int(x * 1000)` applied to a float value: multiply by 1000
and truncate toward zero (`Int.tdiv` rounds toward zero). -/
def intTimes1000 (f : PyFloat) : Int :=
  Int.tdiv (f.num * 1000) (f.den : Int)

/-- Python `float(x)` on a value taken out of parsed JSON: strings are
parsed (`ValueError` when not numeric), numbers and booleans convert,
`None` and containers raise `TypeError`. -/
def pyFloatVal : JVal → Except PyError PyFloat
  | .null => .error .typeError
  | .bool b => .ok (if b then ⟨1, 1⟩ else ⟨0, 1⟩)
  | .num q => .ok q
  | .str s =>
    match pyFloat? s with
    | some q => .ok q
    | none => .error .valueError
  | .arr _ => .error .typeError
  | .obj _ => .error .typeError

/-- UTF-8 bytes of a code point (standard encoding). -/
def utf8Bytes (n : Nat) : List Nat :=
  if n < 128 then [n]
  else if n < 2048 then [192 + n / 64, 128 + n % 64]
  else if n < 65536 then [224 + n / 4096, 128 + n / 64 % 64, 128 + n % 64]
  else [240 + n / 262144, 128 + n / 4096 % 64, 128 + n / 64 % 64, 128 + n % 64]

/-- Uppercase hexadecimal digit. -/
def hexDigit (n : Nat) : Char :=
  if n < 10 then Char.ofNat (48 + n) else Char.ofNat (55 + n)

/-- Model of `urllib.parse.quote` with its default `safe="/"` (line
207): ASCII alphanumerics and `_.-~/` pass through, every other
character is percent-encoded byte by byte of its UTF-8 encoding. -/
def pyQuote (s : String) : String :=
  String.mk (s.data.foldr (fun c acc =>
    if c.isAlphanum || c == '_' || c == '.' || c == '-' || c == '~' || c == '/' then
      c :: acc
    else
      (utf8Bytes c.toNat).foldr
        (fun b acc2 => '%' :: hexDigit (b / 16) :: hexDigit (b % 16) :: acc2) acc) [])

/-- The dictionary returned by `async_get_metadata`: either the empty
dict `{}` — the no-metadata marker, falsy in Python — or the populated
five-key dictionary built from a successful parse (lines 152-158).
`duration` is always present in the populated case because line 157
supplies the default `"0"`. -/
inductive Metadata
  | empty
  | record (title artist album track duration : JVal)

/-- The timeout handed to `asyncio.wait_for` at line 136. -/
def probeTimeout : Nat := 10

/-- Captured stdout of the probe, abstracted to the outcome of
`json.loads` on it: either not decodable as JSON (`json.loads` raises
`JSONDecodeError`), or decoded to a JSON value. -/
inductive StdoutData
  | undecodable
  | decoded (v : JVal)

/-- What `proc.communicate()` does on a given run: either never
complete, or complete after `time` units with an exit code and the
captured stdout. -/
inductive CommResult
  | never
  | completes (rc : Int) (out : StdoutData) (time : Nat)

/-- Model of `asyncio.wait_for(fut, timeout)`: the awaited result when
it arrives within the timeout, otherwise `TimeoutError`. -/
def asyncio_wait_for (tmo : Nat) (c : CommResult) : Except PyError (Int × StdoutData) :=
  match c with
  | .never => .error .timeoutError
  | .completes rc out t => if t ≤ tmo then .ok (rc, out) else .error .timeoutError

/-- `true` iff the probe does not finish within the 10-unit timeout. -/
def timesOut10 : CommResult → Bool
  | .never => true
  | .completes _ _ t => decide (probeTimeout < t)

/-- Observable behaviour of one external `ffprobe` invocation. -/
inductive ProbeBehavior
  | spawnFails
  | runs (comm : CommResult)

/-- Subprocess-management calls performed by `async_get_metadata`, in
the order they are issued. -/
inductive SubprocAction
  | spawn (fp : String)
  | kill
  | procWait
  deriving DecidableEq, Repr

/-- Embedding of `async_get_metadata` (lines 113-158), given the
behaviour of the spawned probe.  The semaphore context `async with sem`
wrapping this body is modelled separately by the scheduler below.  On
timeout the process is killed and awaited and `{}` is returned (lines
137-140); a non-zero exit code returns `{}` (lines 142-143); stdout
that fails JSON decoding returns `{}` (lines 145-148); otherwise the
record is assembled with `data.get("format", {})`,
`format_info.get("tags", {})`, the four `tags.get(...)` fields, and
`format_info.get("duration", "0")` (lines 150-158). -/
def async_get_metadata (file_path : String) (pb : ProbeBehavior) :
    Except PyError (Metadata × List SubprocAction) :=
  match pb with
  | .spawnFails => .error .fileNotFoundError
  | .runs comm =>
    match asyncio_wait_for probeTimeout comm with
    | .error .timeoutError => .ok (.empty, [.spawn file_path, .kill, .procWait])
    | .error e => .error e
    | .ok (rc, out) =>
      if rc ≠ 0 then .ok (.empty, [.spawn file_path])
      else
        match out with
        | .undecodable => .ok (.empty, [.spawn file_path])
        | .decoded data => do
          let format_info ← pyGetD data "format" (.obj [])
          let tags ← pyGetD format_info "tags" (.obj [])
          let title ← pyGetD tags "title" .null
          let artist ← pyGetD tags "artist" .null
          let album ← pyGetD tags "album" .null
          let track ← pyGetD tags "track" .null
          let duration ← pyGetD format_info "duration" (.str "0")
          pure (.record title artist album track duration, [.spawn file_path])

/-- One `<track>` element as far as the properties observe it: the
location plus the optionally-emitted child elements (lines 206-223). -/
structure Track where
  location : String
  title : Option JVal := none
  artist : Option JVal := none
  album : Option JVal := none
  tracknum : Option JVal := none
  durationMs : Option Int := none

/-- Embedding of the per-file track construction in `generate_playlist`
(lines 205-223): the location is `quote(f"{path_prefix}{...}")`; for a
falsy metadata dict no tag element is emitted; otherwise each of the
four tag elements is emitted iff its value is truthy, and the duration
element comes from `int(float(metadata["duration"]) * 1000)` with
`ValueError` and `KeyError` swallowed (lines 219-223) — any other
exception from that expression propagates. -/
def buildTrack (pfx file_path : String) (md : Metadata) : Except PyError Track :=
  let loc := pyQuote (pfx ++ file_path)
  match md with
  | .empty => .ok { location := loc }
  | .record title artist album track duration =>
    let t := if pyTruthy title then some title else none
    let a := if pyTruthy artist then some artist else none
    let al := if pyTruthy album then some album else none
    let tn := if pyTruthy track then some track else none
    match pyFloatVal duration with
    | .ok q =>
      .ok { location := loc, title := t, artist := a, album := al, tracknum := tn,
            durationMs := some (intTimes1000 q) }
    | .error .valueError =>
      .ok { location := loc, title := t, artist := a, album := al, tracknum := tn }
    | .error .keyError =>
      .ok { location := loc, title := t, artist := a, album := al, tracknum := tn }
    | .error e => .error e

/-- Cursor-control sequences written to the terminal (lines 63-64). -/
inductive TermWrite
  | hideCursor
  | showCursor
  deriving DecidableEq, Repr

/-- State of an `AsyncProgressBar` (lines 74-83).  `divisions` counts
the division operations the renderer has performed; the rendered bar
text and timing strings are elided — the properties observe only the
counter, the division count and the cursor-control writes. -/
structure AsyncProgressBar where
  total : Nat
  completed : Nat
  hiddenCursor : Bool
  divisions : Nat

/-- `AsyncProgressBar.__init__` (lines 77-83). -/
def AsyncProgressBar.start (total : Nat) : AsyncProgressBar :=
  { total := total, completed := 0, hiddenCursor := false, divisions := 0 }

/-- Embedding of `AsyncProgressBar.update` (lines 85-103): increment
`completed`; write the hide-cursor sequence on first use and set the
flag; then compute `progress = self.completed / self.total` — a
`ZeroDivisionError` when `total` is 0 — and, since `completed ≥ 1`
makes `progress > 0`, the second division `elapsed / progress` of the
remaining-time estimate.  The mutations preceding the division survive
even when it raises, so the mutated bar is returned in every case. -/
def AsyncProgressBar.update (pb : AsyncProgressBar) :
    List TermWrite × AsyncProgressBar × Option PyError :=
  let ws := if pb.hiddenCursor then [] else [TermWrite.hideCursor]
  let pb1 := { pb with completed := pb.completed + 1, hiddenCursor := true }
  if pb.total = 0 then (ws, pb1, some .zeroDivisionError)
  else (ws, { pb1 with divisions := pb1.divisions + 2 }, none)

/-- Embedding of `AsyncProgressBar.cleanup` (lines 105-110). -/
def AsyncProgressBar.cleanup (pb : AsyncProgressBar) :
    List TermWrite × AsyncProgressBar :=
  if pb.hiddenCursor then ([TermWrite.showCursor], { pb with hiddenCursor := false })
  else ([], pb)

/-- Terminal-facing state threaded through `generate_playlist`: the
progress bar — present only when stdout is a tty (lines 189-190) — and
the cursor-control writes issued so far. -/
structure RunSt where
  pb : Option AsyncProgressBar
  trace : List TermWrite

/-- The result-consumption loop of `generate_playlist` (lines 203-227),
walking the discovered files in order.  `results i` is what
`await metadata_tasks[i]` delivers: the probe task's metadata dict, or
the exception the task raised.  An exception on any step aborts the
loop and propagates, discarding the document under construction.
`gpStep` is one iteration
on the file of ordinal `i`: take the awaited metadata (`{}` without
awaiting when metadata is disabled, line 204), build the track element,
then call `progress.update()` when a bar exists; `gpLoop` folds the
steps over the files. -/
def gpStep (pfx : String) (um : Bool) (results : Nat → Except PyError Metadata)
    (f : String) (i : Nat) (st : RunSt) : Except PyError Track × RunSt :=
  match (if um then results i else Except.ok Metadata.empty) with
  | .error e => (.error e, st)
  | .ok md =>
    match buildTrack pfx f md with
    | .error e => (.error e, st)
    | .ok tk =>
      match st.pb with
      | none => (.ok tk, st)
      | some pb =>
        let u := AsyncProgressBar.update pb
        let st1 : RunSt := ⟨some u.2.1, st.trace ++ u.1⟩
        match u.2.2 with
        | some e => (.error e, st1)
        | none => (.ok tk, st1)

def gpLoop (pfx : String) (um : Bool) (results : Nat → Except PyError Metadata) :
    List String → Nat → RunSt → Except PyError (List Track) × RunSt
  | [], _, st => (.ok [], st)
  | f :: fs, i, st =>
    match gpStep pfx um results f i st with
    | (.error e, st1) => (.error e, st1)
    | (.ok tk, st1) =>
      let rest := gpLoop pfx um results fs (i + 1) st1
      (rest.1.map (fun l => tk :: l), rest.2)

/-- The tail of `generate_playlist` after the loop (lines 229-245): on
normal completion of the loop, `progress.cleanup()` runs when a bar
exists; when the loop raised, the exception propagates and nothing else
runs — there is no try/finally around the loop, so the cleanup is
skipped and the partial state is what the process is left with. -/
def gpFinish :
    Except PyError (List Track) × RunSt → Except PyError (List Track) × RunSt
  | (.error e, st) => (.error e, st)
  | (.ok tracks, st) =>
    match st.pb with
    | none => (.ok tracks, st)
    | some pb =>
      (.ok tracks,
        ⟨some (AsyncProgressBar.cleanup pb).2, st.trace ++ (AsyncProgressBar.cleanup pb).1⟩)

/-- Embedding of `generate_playlist` (lines 161-245) from the point
where the file list is known: set up the progress bar when stdout is a
tty (lines 189-190), consume the per-file results in discovery order,
then finish. -/
def generate_playlist (pfx : String) (um isatty : Bool) (files : List String)
    (results : Nat → Except PyError Metadata) :
    Except PyError (List Track) × RunSt :=
  gpFinish (gpLoop pfx um results files 0
    ⟨if isatty then some (AsyncProgressBar.start files.length) else none, []⟩)

/-- Cursor-control writes of a whole run: `generate_playlist` wrapped
by `main`'s `except asyncio.CancelledError` handler, which re-shows the
cursor when stdout is a tty (lines 275-277), and by the
`except KeyboardInterrupt` handler of the `__main__` block, which
re-shows it unconditionally (lines 283-286).  Any other exception
propagates out of the process with no further terminal writes. -/
def mainTrace (pfx : String) (um isatty : Bool) (files : List String)
    (results : Nat → Except PyError Metadata) : List TermWrite :=
  let out := generate_playlist pfx um isatty files results
  match out.1 with
  | .ok _ => out.2.trace
  | .error .cancelledError =>
    out.2.trace ++ (if isatty then [TermWrite.showCursor] else [])
  | .error .keyboardInterrupt => out.2.trace ++ [TermWrite.showCursor]
  | .error _ => out.2.trace

/-- `completed` counter of the run's progress bar (0 when no bar). -/
def completedOf (st : RunSt) : Nat :=
  match st.pb with
  | some pb => pb.completed
  | none => 0

/-- Divisions performed by the run's progress bar (0 when no bar). -/
def divisionsOf (st : RunSt) : Nat :=
  match st.pb with
  | some pb => pb.divisions
  | none => 0

/-- Whether the run's progress bar currently hides the cursor. -/
def hiddenOf (st : RunSt) : Bool :=
  match st.pb with
  | some pb => pb.hiddenCursor
  | none => false

/-- Whether an `Except` is a normal (non-raising) return. -/
def exceptOk {ε α : Type _} : Except ε α → Bool
  | .ok _ => true
  | .error _ => false

/-- The per-ordinal results of the probe tasks listed in the order in
which the tasks complete: `order` is the completion order of the
ordinals, and the completion of task `i` contributes `(i, rs i)`. -/
def completionLog (order : List Nat) (rs : Nat → Metadata) : List (Nat × Metadata) :=
  order.map (fun i => (i, rs i))

/-- `await metadata_tasks[i]`: a completed task's result is keyed by
its ordinal, not by when it finished, so awaiting task `i` retrieves
ordinal `i`'s entry of the completion log. -/
def awaitTask (log : List (Nat × Metadata)) (i : Nat) : Except PyError Metadata :=
  match log.find? (fun kv => kv.1 == i) with
  | some kv => .ok kv.2
  | none => .error .keyError

/-- `asyncio.Semaphore(value)`: raises `ValueError` for a negative
initial value, otherwise starts with `value` permits. -/
def asyncioSemaphore (value : Int) : Except PyError Nat :=
  if value < 0 then .error .valueError else .ok value.toNat

/-- Parser default of the concurrency option (lines 51-57); the parser
performs no validation and imposes no minimum. -/
def concurrencyDefault : Int := 8

/-- The setup phase of `generate_playlist` before any result is
consumed (lines 188-200): construct the progress bar, construct the
semaphore — which may raise — and then create one probe task per file
when metadata is enabled.  Returns the number of probe tasks created. -/
def setupPhase (concurrency : Int) (um : Bool) (files : List String) :
    Except PyError Nat :=
  match asyncioSemaphore concurrency with
  | .error e => .error e
  | .ok _ => .ok (if um then files.length else 0)

/-- Outcome with which a probe task leaves its `async with sem` block:
normal return, an exception, the handled timeout, or cancellation. -/
inductive Outcome
  | success
  | failure
  | timedOut
  | cancelled
  deriving DecidableEq, Repr

/-- Per-task progress through `async_get_metadata`'s `async with sem`
block: before acquiring the semaphore, holding it (the probe is in
flight), or finished with some outcome. -/
inductive Phase
  | pending
  | probing
  | finished (o : Outcome)
  deriving DecidableEq, Repr

/-- Global state of the semaphore-gated task pool: each task's phase
plus the semaphore's current permit count. -/
structure SchedState where
  phases : List Phase
  sem : Nat
  deriving DecidableEq, Repr

/-- Number of probe invocations currently in flight. -/
def countProbing (s : SchedState) : Nat :=
  s.phases.countP (fun p => decide (p = Phase.probing))

/-- Whether every task of the pool has left its semaphore block. -/
def allFinished (s : SchedState) : Bool :=
  s.phases.all (fun p => match p with | .finished _ => true | _ => false)

/-- One scheduler step of the asyncio event loop, restricted to the
semaphore interactions: a pending task acquires the semaphore when a
permit is free (`sem.acquire` suspends otherwise), or an in-flight task
leaves its block with any outcome — success, failure, timeout or
cancellation — releasing its permit, since `async with sem` releases on
every exit path of the block. -/
inductive SchedStep : SchedState → SchedState → Prop
  | acquire (s : SchedState) (i : Nat) (h : s.phases[i]? = some Phase.pending)
      (hs : 0 < s.sem) :
      SchedStep s ⟨s.phases.set i Phase.probing, s.sem - 1⟩
  | finish (s : SchedState) (i : Nat) (o : Outcome)
      (h : s.phases[i]? = some Phase.probing) :
      SchedStep s ⟨s.phases.set i (Phase.finished o), s.sem + 1⟩

/-- States reachable by a pool of `n` probe tasks started on a fresh
semaphore with `p` permits (lines 191-198). -/
inductive SchedReach (p n : Nat) : SchedState → Prop
  | start : SchedReach p n ⟨List.replicate n Phase.pending, p⟩
  | next {s t : SchedState} : SchedReach p n s → SchedStep s t → SchedReach p n t

/-! ### Helper lemmas about the scheduler -/

theorem countP_set_eq (pr : Phase → Bool) :
    ∀ (l : List Phase) (i : Nat) (b a : Phase), l[i]? = some b →
      (l.set i a).countP pr + (if pr b then 1 else 0) =
        l.countP pr + (if pr a then 1 else 0) := by
  intro l
  induction l with
  | nil => intro i b a h; simp at h
  | cons x xs ih =>
    intro i b a h
    cases i with
    | zero =>
      simp at h
      subst h
      simp [List.set, List.countP_cons]
      omega
    | succ j =>
      simp at h
      have hx := ih j b a h
      simp [List.set, List.countP_cons]
      omega

theorem countP_replicate_pending (n : Nat) :
    (List.replicate n Phase.pending).countP (fun q => decide (q = Phase.probing)) = 0 := by
  induction n with
  | zero => rfl
  | succ k ih => simp [List.replicate, List.countP_cons, ih]

theorem sched_invariant {p n : Nat} {s : SchedState} (h : SchedReach p n s) :
    countProbing s + s.sem = p := by
  induction h with
  | start => simp [countProbing, countP_replicate_pending]
  | next hr hstep ih =>
    cases hstep with
    | acquire i hp hs =>
      have hc := countP_set_eq (fun q => decide (q = Phase.probing)) _ i
        Phase.pending Phase.probing hp
      simp only [countProbing] at ih ⊢
      simp at hc
      omega
    | finish i o hp =>
      have hc := countP_set_eq (fun q => decide (q = Phase.probing)) _ i
        Phase.probing (Phase.finished o) hp
      simp only [countProbing] at ih ⊢
      simp at hc
      omega

theorem allFinished_no_probing {s : SchedState} (h : allFinished s = true) :
    countProbing s = 0 := by
  by_contra hne
  have hpos : 0 < countProbing s := Nat.pos_of_ne_zero hne
  unfold countProbing at hpos
  obtain ⟨a, hmem, ha⟩ := List.countP_pos_iff.mp hpos
  have ha2 : a = Phase.probing := of_decide_eq_true ha
  subst ha2
  have hall := List.all_eq_true.mp h _ hmem
  simp at hall

/-! ### Claims about the concurrency limiter -/

/-- Claim C2 (confirmed): for every concurrency bound `p ≥ 1` and every
pool of `n` probe tasks, every reachable scheduler state has at most
`p` probe invocations in flight; and because the semaphore is released
on every exit path of the `async with sem` block — success, failure,
timeout or cancellation — a state in which every task has finished has
all `p` permits back in the semaphore. -/
theorem c2_concurrency_bound (p n : Nat) (_hp : 1 ≤ p) (s : SchedState)
    (hs : SchedReach p n s) :
    countProbing s ≤ p ∧ (allFinished s = true → s.sem = p) := by
  have hinv := sched_invariant hs
  refine ⟨by omega, fun hall => ?_⟩
  have hzero := allFinished_no_probing hall
  omega

/-- Witness for C2 at `p = 1`, `n = 1`: the state reached by acquiring
the permit, probing and finishing. -/
theorem c2_witness :
    countProbing ⟨[Phase.finished Outcome.success], 1⟩ ≤ 1 ∧
      (allFinished ⟨[Phase.finished Outcome.success], 1⟩ = true →
        SchedState.sem ⟨[Phase.finished Outcome.success], 1⟩ = 1) :=
  c2_concurrency_bound 1 1 (by decide) _
    (SchedReach.next
      (SchedReach.next SchedReach.start
        (SchedStep.acquire ⟨List.replicate 1 Phase.pending, 1⟩ 0 rfl (by decide)))
      (SchedStep.finish ⟨[Phase.probing], 0⟩ 0 Outcome.success rfl))

/-- Counterexample to claim C6: with the configured bound 0 — which is
`≤ 0` — the setup phase does not fail fast: the semaphore is
constructed successfully and a probe task is launched for the one
discovered file. -/
theorem c6_counterexample : setupPhase 0 true ["song.mp3"] = .ok 1 := rfl

/-- Claim C6 (corrected): the parser applies no validation to the
bound.  A negative bound raises `ValueError` when the semaphore is
constructed, which happens before any probe task is created; a zero
bound is accepted — setup completes and the probe tasks are launched —
but with zero permits no task ever enters its probe, so the run hangs
instead of failing fast.  The default is 8. -/
theorem c6_bound_amended :
    (∀ (c : Int) (um : Bool) (files : List String), c < 0 →
        setupPhase c um files = .error .valueError)
    ∧ (∀ (um : Bool) (files : List String),
        setupPhase 0 um files = .ok (if um then files.length else 0))
    ∧ (∀ (n : Nat) (s : SchedState), SchedReach 0 n s → countProbing s = 0)
    ∧ concurrencyDefault = 8 := by
  refine ⟨?_, ?_, ?_, rfl⟩
  · intro c um files hc
    simp [setupPhase, asyncioSemaphore, hc]
  · intro um files
    simp [setupPhase, asyncioSemaphore]
  · intro n s hs
    have := sched_invariant hs
    omega

/-- Witness for C6 at bound `-1` and at bound 0 with one task. -/
theorem c6_witness :
    setupPhase (-1) true ["song.mp3"] = .error .valueError ∧
      countProbing ⟨[Phase.pending], 0⟩ = 0 :=
  ⟨c6_bound_amended.1 (-1) true ["song.mp3"] (by decide),
   c6_bound_amended.2.2.1 1 ⟨[Phase.pending], 0⟩ SchedReach.start⟩

/-! ### Claims about the probe invoker -/

/-- Claim C3 (confirmed): when the probe does not finish within the
10-unit timeout, `async_get_metadata` kills the process, awaits its
termination, and returns the empty no-metadata record. -/
theorem c3_timeout_kills_and_returns_marker (fp : String) (c : CommResult)
    (h : timesOut10 c = true) :
    async_get_metadata fp (.runs c) =
      .ok (.empty, [.spawn fp, .kill, .procWait]) := by
  cases c with
  | never => rfl
  | completes rc out t =>
    have ht : probeTimeout < t := of_decide_eq_true h
    have hle : ¬ (t ≤ probeTimeout) := Nat.not_le.mpr ht
    simp [async_get_metadata, asyncio_wait_for, hle]

/-- Witness for C3: a probe that never completes. -/
theorem c3_witness :
    async_get_metadata "a" (.runs .never) =
      .ok (.empty, [.spawn "a", .kill, .procWait]) :=
  c3_timeout_kills_and_returns_marker "a" .never rfl

/-- Counterexample to claim C4: a probe that exits 0 with output that
json-decodes to a non-object value (a JSON array) makes
`async_get_metadata` raise `AttributeError` past its boundary
(`data.get` on a list), instead of returning the no-metadata marker. -/
theorem c4_counterexample :
    async_get_metadata "a" (.runs (.completes 0 (.decoded (.arr [])) 0)) =
      .error .attributeError := rfl

/-- Claim C4 (corrected): a non-zero exit code or output that fails
JSON decoding returns the no-metadata marker as a normal value; but
output that decodes to a non-object JSON value raises `AttributeError`
past the boundary. -/
theorem c4_error_cases_amended :
    (∀ (fp : String) (rc : Int) (out : StdoutData) (t : Nat),
        t ≤ probeTimeout → rc ≠ 0 →
        async_get_metadata fp (.runs (.completes rc out t)) =
          .ok (.empty, [.spawn fp]))
    ∧ (∀ (fp : String) (t : Nat), t ≤ probeTimeout →
        async_get_metadata fp (.runs (.completes 0 .undecodable t)) =
          .ok (.empty, [.spawn fp]))
    ∧ (∀ (fp : String) (t : Nat) (v : JVal), t ≤ probeTimeout →
        (∀ fields, v ≠ JVal.obj fields) →
        async_get_metadata fp (.runs (.completes 0 (.decoded v) t)) =
          .error .attributeError) := by
  refine ⟨?_, ?_, ?_⟩
  · intro fp rc out t ht hrc
    simp [async_get_metadata, asyncio_wait_for, ht, hrc]
  · intro fp t ht
    simp [async_get_metadata, asyncio_wait_for, ht]
  · intro fp t v ht hv
    cases v with
    | obj fields => exact absurd rfl (hv fields)
    | null =>
      simp [async_get_metadata, asyncio_wait_for, ht, pyGetD]
      rfl
    | bool b =>
      simp [async_get_metadata, asyncio_wait_for, ht, pyGetD]
      rfl
    | num q =>
      simp [async_get_metadata, asyncio_wait_for, ht, pyGetD]
      rfl
    | str s =>
      simp [async_get_metadata, asyncio_wait_for, ht, pyGetD]
      rfl
    | arr elems =>
      simp [async_get_metadata, asyncio_wait_for, ht, pyGetD]
      rfl

/-- Witness for C4: non-zero exit, undecodable output, and non-object
output, each at a concrete input. -/
theorem c4_witness :
    async_get_metadata "a" (.runs (.completes 7 .undecodable 0)) =
      .ok (.empty, [.spawn "a"]) ∧
    async_get_metadata "b" (.runs (.completes 0 .undecodable 0)) =
      .ok (.empty, [.spawn "b"]) ∧
    async_get_metadata "c" (.runs (.completes 0 (.decoded (.str "x")) 0)) =
      .error .attributeError :=
  ⟨c4_error_cases_amended.1 "a" 7 .undecodable 0 (by decide) (by decide),
   c4_error_cases_amended.2.1 "b" 0 (by decide),
   c4_error_cases_amended.2.2 "c" 0 (.str "x") (by decide)
     (fun fields h => JVal.noConfusion h)⟩

/-- Counterexample to claim C5: a probe result whose `format` object
has no `duration` key.  Line 157 defaults the missing duration to the
string `"0"`, so the resulting track does not omit the duration
element — it emits a duration of 0 milliseconds. -/
theorem c5_counterexample :
    async_get_metadata "a"
        (.runs (.completes 0
          (.decoded (.obj [("format",
            .obj [("tags", .obj [("title", .str "A")])])])) 0)) =
      .ok (.record (.str "A") .null .null .null (.str "0"), [.spawn "a"]) ∧
    buildTrack "" "a" (.record (.str "A") .null .null .null (.str "0")) =
      .ok { location := "a", title := some (.str "A"), durationMs := some 0 } :=
  ⟨rfl, rfl⟩

/-- Claim C5 (corrected): a non-numeric duration string raises
`ValueError` inside `float`, which is swallowed, so the duration
element is omitted while all other fields are still produced; but a
duration that is missing from the probe output is defaulted to `"0"`
by `format_info.get("duration", "0")`, so the record carries `"0"` and
a duration element of 0 ms is emitted rather than omitted. -/
theorem c5_duration_amended :
    (∀ (pfx f : String) (title artist album track : JVal) (s : String),
        pyFloat? s = none →
        buildTrack pfx f (.record title artist album track (.str s)) =
          .ok { location := pyQuote (pfx ++ f),
                title := if pyTruthy title then some title else none,
                artist := if pyTruthy artist then some artist else none,
                album := if pyTruthy album then some album else none,
                tracknum := if pyTruthy track then some track else none,
                durationMs := none })
    ∧ (∀ (fp : String) (tm : Nat), tm ≤ probeTimeout →
        async_get_metadata fp
            (.runs (.completes 0
              (.decoded (.obj [("format", .obj [("tags", .obj [])])])) tm)) =
          .ok (.record .null .null .null .null (.str "0"), [.spawn fp])) := by
  refine ⟨?_, ?_⟩
  · intro pfx f title artist album track s hs
    simp [buildTrack, pyFloatVal, hs]
  · intro fp tm htm
    simp [async_get_metadata, asyncio_wait_for, htm]
    rfl

/-- Witness for C5: the non-numeric duration `"N/A"` omits the
element; the missing duration defaults to `"0"`. -/
theorem c5_witness :
    buildTrack "" "a" (.record .null .null .null .null (.str "N/A")) =
      .ok { location := "a" } ∧
    async_get_metadata "a"
        (.runs (.completes 0
          (.decoded (.obj [("format", .obj [("tags", .obj [])])])) 0)) =
      .ok (.record .null .null .null .null (.str "0"), [.spawn "a"]) :=
  ⟨c5_duration_amended.1 "" "a" .null .null .null .null "N/A" rfl,
   c5_duration_amended.2 "a" 0 (by decide)⟩

/-! ### Claim about tag-element emission -/

/-- Claim C10 (confirmed): emission of the four tag elements is gated
on Python truthiness (`if metadata.get("title"):`, lines 211-218), so
an empty-string field value is treated exactly like an absent (`None`)
field — no element is emitted for it, while the location and the
duration are still produced. -/
theorem c10_empty_string_like_absent (pfx f : String) :
    buildTrack pfx f (.record (.str "") (.str "") (.str "") (.str "") (.str "0")) =
      .ok { location := pyQuote (pfx ++ f), durationMs := some 0 } ∧
    buildTrack pfx f (.record .null .null .null .null (.str "0")) =
      .ok { location := pyQuote (pfx ++ f), durationMs := some 0 } :=
  ⟨rfl, rfl⟩

/-! ### Helper lemmas about the progress bar and the loop -/

theorem update_total (pb : AsyncProgressBar) :
    (AsyncProgressBar.update pb).2.1.total = pb.total := by
  unfold AsyncProgressBar.update
  by_cases h : pb.total = 0 <;> simp [h]

theorem update_completed (pb : AsyncProgressBar) :
    (AsyncProgressBar.update pb).2.1.completed = pb.completed + 1 := by
  unfold AsyncProgressBar.update
  by_cases h : pb.total = 0 <;> simp [h]

theorem update_hidden (pb : AsyncProgressBar) :
    (AsyncProgressBar.update pb).2.1.hiddenCursor = true := by
  unfold AsyncProgressBar.update
  by_cases h : pb.total = 0 <;> simp [h]

theorem update_err_of_total_ne (pb : AsyncProgressBar) (h : pb.total ≠ 0) :
    (AsyncProgressBar.update pb).2.2 = none := by
  unfold AsyncProgressBar.update
  simp [h]

theorem gpFinish_fst (out : Except PyError (List Track) × RunSt) :
    (gpFinish out).1 = out.1 := by
  obtain ⟨res, pb, tr⟩ := out
  cases res with
  | error e => rfl
  | ok tracks => cases pb <;> rfl

theorem gpFinish_completed (out : Except PyError (List Track) × RunSt) :
    completedOf (gpFinish out).2 = completedOf out.2 := by
  obtain ⟨res, pb, tr⟩ := out
  cases res with
  | error e => rfl
  | ok tracks =>
    cases pb with
    | none => rfl
    | some b =>
      simp only [gpFinish, completedOf, AsyncProgressBar.cleanup]
      by_cases h : b.hiddenCursor <;> simp [h]

theorem gpStep_disabled (pfx : String) (results : Nat → Except PyError Metadata)
    (f : String) (i : Nat) (pb : AsyncProgressBar) (tr : List TermWrite)
    (h : pb.total ≠ 0) :
    gpStep pfx false results f i ⟨some pb, tr⟩ =
      (.ok { location := pyQuote (pfx ++ f) },
        ⟨some (AsyncProgressBar.update pb).2.1, tr ++ (AsyncProgressBar.update pb).1⟩) := by
  simp only [gpStep, buildTrack]
  rw [update_err_of_total_ne pb h]
  rfl

theorem gpStep_ok_state (pfx : String) (um : Bool)
    (results : Nat → Except PyError Metadata) (f : String) (i : Nat)
    (pb : AsyncProgressBar) (tr : List TermWrite) (tk : Track) (st1 : RunSt)
    (h : gpStep pfx um results f i ⟨some pb, tr⟩ = (.ok tk, st1)) :
    st1 = ⟨some (AsyncProgressBar.update pb).2.1, tr ++ (AsyncProgressBar.update pb).1⟩ := by
  unfold gpStep at h
  cases hmd : (if um then results i else Except.ok Metadata.empty) with
  | error e => rw [hmd] at h; simp at h
  | ok md =>
    rw [hmd] at h
    simp only [] at h
    cases hbt : buildTrack pfx f md with
    | error e => rw [hbt] at h; simp at h
    | ok tk2 =>
      rw [hbt] at h
      simp only [] at h
      cases hu : (AsyncProgressBar.update pb).2.2 with
      | some e => rw [hu] at h; simp at h
      | none =>
        rw [hu] at h
        simp at h
        exact h.2.symm

theorem exceptOk_map {ε α β : Type _} (g : α → β) (e : Except ε α) :
    exceptOk (e.map g) = exceptOk e := by
  cases e <;> rfl

theorem gpLoop_disabled_fst (pfx : String) (results : Nat → Except PyError Metadata) :
    ∀ (fs : List String) (i : Nat) (pb : AsyncProgressBar) (tr : List TermWrite),
      pb.total ≠ 0 →
      (gpLoop pfx false results fs i ⟨some pb, tr⟩).1 =
        .ok (fs.map (fun f => { location := pyQuote (pfx ++ f) : Track })) := by
  intro fs
  induction fs with
  | nil => intro i pb tr h; rfl
  | cons f fs ih =>
    intro i pb tr h
    have ht : (AsyncProgressBar.update pb).2.1.total ≠ 0 := by
      rw [update_total]; exact h
    simp only [gpLoop]
    rw [gpStep_disabled pfx results f i pb tr h]
    simp only []
    rw [ih (i + 1) (AsyncProgressBar.update pb).2.1 (tr ++ (AsyncProgressBar.update pb).1) ht]
    simp [Except.map]

theorem gpLoop_completed_of_ok (pfx : String) (um : Bool)
    (results : Nat → Except PyError Metadata) :
    ∀ (fs : List String) (i : Nat) (pb : AsyncProgressBar) (tr : List TermWrite),
      pb.total ≠ 0 →
      exceptOk (gpLoop pfx um results fs i ⟨some pb, tr⟩).1 = true →
      completedOf (gpLoop pfx um results fs i ⟨some pb, tr⟩).2 =
        pb.completed + fs.length := by
  intro fs
  induction fs with
  | nil => intro i pb tr h hok; rfl
  | cons f fs ih =>
    intro i pb tr h hok
    simp only [gpLoop] at hok ⊢
    cases hstep : gpStep pfx um results f i ⟨some pb, tr⟩ with
    | mk res st1 =>
      cases res with
      | error e =>
        rw [hstep] at hok
        simp [exceptOk] at hok
      | ok tk =>
        have hst1 : st1 = ⟨some (AsyncProgressBar.update pb).2.1,
            tr ++ (AsyncProgressBar.update pb).1⟩ :=
          gpStep_ok_state pfx um results f i pb tr tk st1 hstep
        subst hst1
        rw [hstep] at hok
        simp only [] at hok ⊢
        have ht : (AsyncProgressBar.update pb).2.1.total ≠ 0 := by
          rw [update_total]; exact h
        rw [exceptOk_map] at hok
        have hrec := ih (i + 1) (AsyncProgressBar.update pb).2.1
          (tr ++ (AsyncProgressBar.update pb).1) ht hok
        rw [hrec, update_completed]
        simp [List.length_cons]
        omega

/-! ### Claims about the harvest coordinator -/

/-- Claim C9 (confirmed): a run over zero items completes with an empty
track list, the progress reporter performs no division (its total is 0
but `update` is never called), records no completion, and writes
nothing to the terminal. -/
theorem c9_zero_items (pfx : String) (um isatty : Bool)
    (results : Nat → Except PyError Metadata) :
    (generate_playlist pfx um isatty [] results).1 = .ok [] ∧
      divisionsOf (generate_playlist pfx um isatty [] results).2 = 0 ∧
      completedOf (generate_playlist pfx um isatty [] results).2 = 0 ∧
      (generate_playlist pfx um isatty [] results).2.trace = [] := by
  cases isatty <;> exact ⟨rfl, rfl, rfl, rfl⟩

/-- Claim C8 (confirmed): with metadata disabled and a terminal
attached, harvesting `n` files yields exactly `n` track entries — each
with an empty tag set, only the location populated — and exactly `n`
progress completions, one per item; and the enabled mode drives the
same cadence: whenever an enabled run completes normally it also
records exactly `n` completions. -/
theorem c8_disabled_mode (pfx : String) (files : List String)
    (results : Nat → Except PyError Metadata) :
    (generate_playlist pfx false true files results).1 =
        .ok (files.map (fun f => { location := pyQuote (pfx ++ f) : Track })) ∧
      completedOf (generate_playlist pfx false true files results).2 = files.length ∧
      (∀ tk : Track, tk ∈ files.map (fun f => { location := pyQuote (pfx ++ f) : Track }) →
        tk.title = none ∧ tk.artist = none ∧ tk.album = none ∧ tk.tracknum = none ∧
          tk.durationMs = none) ∧
      (∀ results2 : Nat → Except PyError Metadata,
        exceptOk (generate_playlist pfx true true files results2).1 = true →
        completedOf (generate_playlist pfx true true files results2).2 = files.length) := by
  refine ⟨?_, ?_, ?_, ?_⟩
  · unfold generate_playlist
    rw [gpFinish_fst]
    cases files with
    | nil => rfl
    | cons f fs =>
      exact gpLoop_disabled_fst pfx results (f :: fs) 0
        (AsyncProgressBar.start (f :: fs).length) [] (by simp [AsyncProgressBar.start])
  · unfold generate_playlist
    rw [gpFinish_completed]
    cases files with
    | nil => rfl
    | cons f fs =>
      have h1 := gpLoop_disabled_fst pfx results (f :: fs) 0
        (AsyncProgressBar.start (f :: fs).length) [] (by simp [AsyncProgressBar.start])
      have hok : exceptOk (gpLoop pfx false results (f :: fs) 0
          ⟨some (AsyncProgressBar.start (f :: fs).length), []⟩).1 = true := by
        rw [h1]; rfl
      have h2 := gpLoop_completed_of_ok pfx false results (f :: fs) 0
        (AsyncProgressBar.start (f :: fs).length) [] (by simp [AsyncProgressBar.start]) hok
      simpa [AsyncProgressBar.start] using h2
  · intro tk htk
    obtain ⟨f, hf, heq⟩ := List.mem_map.mp htk
    subst heq
    exact ⟨rfl, rfl, rfl, rfl, rfl⟩
  · intro results2 hok2
    unfold generate_playlist at hok2 ⊢
    rw [gpFinish_fst] at hok2
    rw [gpFinish_completed]
    cases files with
    | nil => rfl
    | cons f fs =>
      have h2 := gpLoop_completed_of_ok pfx true results2 (f :: fs) 0
        (AsyncProgressBar.start (f :: fs).length) [] (by simp [AsyncProgressBar.start]) hok2
      simpa [AsyncProgressBar.start] using h2

/-- Witness for C8 on one file. -/
theorem c8_witness :
    (generate_playlist "" false true ["a"] (fun _ => .ok .empty)).1 =
        .ok (["a"].map (fun f => { location := pyQuote ("" ++ f) : Track })) ∧
      completedOf (generate_playlist "" false true ["a"] (fun _ => .ok .empty)).2 = 1 ∧
      ({ location := pyQuote ("" ++ "a") : Track }.title = none) ∧
      completedOf (generate_playlist "" true true ["a"] (fun _ => .ok .empty)).2 = 1 :=
  (fun h => ⟨h.1, h.2.1, (h.2.2.1 _ (by simp)).1,
      h.2.2.2 (fun _ => .ok .empty) (by decide)⟩)
    (c8_disabled_mode "" ["a"] (fun _ => .ok .empty))

theorem update_writes (pb : AsyncProgressBar) :
    (AsyncProgressBar.update pb).1 =
      if pb.hiddenCursor then [] else [TermWrite.hideCursor] := by
  unfold AsyncProgressBar.update
  by_cases h : pb.total = 0 <;> simp [h]

theorem cleanup_writes (pb : AsyncProgressBar) :
    (AsyncProgressBar.cleanup pb).1 =
      if pb.hiddenCursor then [TermWrite.showCursor] else [] := by
  unfold AsyncProgressBar.cleanup
  by_cases h : pb.hiddenCursor <;> simp [h]

theorem gpStep_state (pfx : String) (um : Bool)
    (results : Nat → Except PyError Metadata) (f : String) (i : Nat) (st : RunSt) :
    (gpStep pfx um results f i st).2 = st ∨
      ∃ pb, st.pb = some pb ∧ (gpStep pfx um results f i st).2 =
        ⟨some (AsyncProgressBar.update pb).2.1,
          st.trace ++ (AsyncProgressBar.update pb).1⟩ := by
  unfold gpStep
  cases hmd : (if um then results i else Except.ok Metadata.empty) with
  | error e => exact Or.inl rfl
  | ok md =>
    simp only []
    cases hbt : buildTrack pfx f md with
    | error e => exact Or.inl rfl
    | ok tk =>
      simp only []
      obtain ⟨pb, tr⟩ := st
      cases pb with
      | none => exact Or.inl rfl
      | some b =>
        simp only []
        cases hu : (AsyncProgressBar.update b).2.2 with
        | some e => exact Or.inr ⟨b, rfl, rfl⟩
        | none => exact Or.inr ⟨b, rfl, rfl⟩

theorem gpStep_cursorInv (pfx : String) (um : Bool)
    (results : Nat → Except PyError Metadata) (f : String) (i : Nat) (st : RunSt)
    (hinv : (hiddenOf st = true) ↔ TermWrite.hideCursor ∈ st.trace) :
    ((hiddenOf (gpStep pfx um results f i st).2 = true) ↔
      TermWrite.hideCursor ∈ (gpStep pfx um results f i st).2.trace) := by
  rcases gpStep_state pfx um results f i st with h | ⟨pb, hpb, h⟩
  · rw [h]; exact hinv
  · rw [h]
    have hmem : TermWrite.hideCursor ∈ st.trace ++ (AsyncProgressBar.update pb).1 := by
      by_cases hh : pb.hiddenCursor
      · have h1 : hiddenOf st = true := by simp [hiddenOf, hpb, hh]
        exact List.mem_append.mpr (Or.inl (hinv.mp h1))
      · rw [update_writes]
        simp [hh]
    constructor
    · intro _
      exact hmem
    · intro _
      simp [hiddenOf, update_hidden]

theorem gpLoop_pb_isSome (pfx : String) (um : Bool)
    (results : Nat → Except PyError Metadata) :
    ∀ (fs : List String) (i : Nat) (st : RunSt),
      ((gpLoop pfx um results fs i st).2.pb).isSome = st.pb.isSome := by
  intro fs
  induction fs with
  | nil => intro i st; rfl
  | cons f fs ih =>
    intro i st
    simp only [gpLoop]
    have hshape := gpStep_state pfx um results f i st
    cases hstep : gpStep pfx um results f i st with
    | mk res st1 =>
      rw [hstep] at hshape
      simp only [] at hshape
      cases res with
      | error e =>
        simp only []
        rcases hshape with h | ⟨pb, hpb, h⟩
        · rw [h]
        · rw [h, hpb]; rfl
      | ok tk =>
        simp only []
        rw [ih (i + 1) st1]
        rcases hshape with h | ⟨pb, hpb, h⟩
        · rw [h]
        · rw [h, hpb]; rfl

theorem gpLoop_cursorInv (pfx : String) (um : Bool)
    (results : Nat → Except PyError Metadata) :
    ∀ (fs : List String) (i : Nat) (st : RunSt),
      ((hiddenOf st = true) ↔ TermWrite.hideCursor ∈ st.trace) →
      ((hiddenOf (gpLoop pfx um results fs i st).2 = true) ↔
        TermWrite.hideCursor ∈ (gpLoop pfx um results fs i st).2.trace) := by
  intro fs
  induction fs with
  | nil => intro i st h; exact h
  | cons f fs ih =>
    intro i st h
    simp only [gpLoop]
    have hstepinv := gpStep_cursorInv pfx um results f i st h
    cases hstep : gpStep pfx um results f i st with
    | mk res st1 =>
      rw [hstep] at hstepinv
      simp only [] at hstepinv
      cases res with
      | error e => exact hstepinv
      | ok tk => exact ih (i + 1) st1 hstepinv

/-- Counterexample to claim C7: metadata enabled, terminal attached,
two files; the first probe returns the marker and the progress update
hides the cursor, then awaiting the second task raises a spawn failure
(`ffprobe` missing).  `generate_playlist` has no try/finally, `main`
catches only `CancelledError` and the `__main__` block only
`KeyboardInterrupt`, so no cursor-show is ever written: the run ends
with the cursor still hidden. -/
theorem c7_counterexample :
    mainTrace "" true true ["a", "b"]
        (fun i => if i = 0 then .ok .empty else .error .fileNotFoundError) =
      [TermWrite.hideCursor] ∧
    TermWrite.showCursor ∉
      mainTrace "" true true ["a", "b"]
        (fun i => if i = 0 then .ok .empty else .error .fileNotFoundError) := by
  constructor
  · decide
  · decide

/-- Claim C7 (corrected): the cursor-visible guarantee holds on the
exit paths the code handles — normal completion (cleanup at lines
244-245), cancellation (handler at lines 275-277) and keyboard
interrupt (handler at lines 283-286) — but not on other unhandled
errors: an exception such as a probe spawn failure aborts the loop,
skips the cleanup, and leaves the cursor hidden, as the counterexample
shows.  On the handled paths, whenever the hide-cursor sequence was
written the show-cursor sequence is written too. -/
theorem c7_cursor_restored_amended (pfx : String) (um isatty : Bool)
    (files : List String) (results : Nat → Except PyError Metadata)
    (hok : exceptOk (generate_playlist pfx um isatty files results).1 = true ∨
      (generate_playlist pfx um isatty files results).1 = .error .cancelledError ∨
      (generate_playlist pfx um isatty files results).1 = .error .keyboardInterrupt)
    (hhide : TermWrite.hideCursor ∈ mainTrace pfx um isatty files results) :
    TermWrite.showCursor ∈ mainTrace pfx um isatty files results := by
  have hinv0 : (hiddenOf (⟨if isatty then some (AsyncProgressBar.start files.length)
        else none, []⟩ : RunSt) = true)
      ↔ TermWrite.hideCursor ∈ (⟨if isatty then some (AsyncProgressBar.start files.length)
        else none, []⟩ : RunSt).trace := by
    cases isatty <;> simp [hiddenOf, AsyncProgressBar.start]
  have hinvOut := gpLoop_cursorInv pfx um results files 0
    ⟨if isatty then some (AsyncProgressBar.start files.length) else none, []⟩ hinv0
  have hsome := gpLoop_pb_isSome pfx um results files 0
    ⟨if isatty then some (AsyncProgressBar.start files.length) else none, []⟩
  unfold mainTrace at hhide ⊢
  unfold generate_playlist at hok hhide ⊢
  revert hok hhide hinvOut hsome
  generalize gpLoop pfx um results files 0
      ⟨if isatty then some (AsyncProgressBar.start files.length) else none, []⟩ = out
  obtain ⟨res, pb2, tr2⟩ := out
  intro hok hhide hinvOut hsome
  cases res with
  | ok tracks =>
    cases pb2 with
    | none =>
      simp only [gpFinish] at hhide ⊢
      have hnot : TermWrite.hideCursor ∉ tr2 := by
        intro hmem
        have := hinvOut.mpr (by simpa using hmem)
        simp [hiddenOf] at this
      exact absurd (by simpa using hhide) hnot
    | some b =>
      simp only [gpFinish] at hhide ⊢
      by_cases hb : b.hiddenCursor
      · rw [cleanup_writes]
        simp [hb]
      · have hnot : TermWrite.hideCursor ∉ tr2 := by
          intro hmem
          have := hinvOut.mpr (by simpa using hmem)
          simp [hiddenOf, hb] at this
        rw [cleanup_writes] at hhide
        simp [hb] at hhide
        exact absurd hhide hnot
  | error e =>
    simp only [gpFinish] at hok hhide ⊢
    rcases hok with h1 | h2 | h3
    · simp [exceptOk] at h1
    · have he : e = PyError.cancelledError := by simpa using h2
      subst he
      simp only [] at hhide ⊢
      cases isatty with
      | true => simp
      | false =>
        have hnone : pb2 = none := by simpa using hsome
        subst hnone
        have hnot : TermWrite.hideCursor ∉ tr2 := by
          intro hmem
          have := hinvOut.mpr (by simpa using hmem)
          simp [hiddenOf] at this
        exact absurd (by simpa using hhide) hnot
    · have he : e = PyError.keyboardInterrupt := by simpa using h3
      subst he
      simp

/-- Witness for C7 on a normally-completing run that hid the cursor. -/
theorem c7_witness :
    TermWrite.showCursor ∈ mainTrace "" false true ["a"] (fun _ => .ok .empty) :=
  c7_cursor_restored_amended "" false true ["a"] (fun _ => .ok .empty)
    (Or.inl (by decide)) (by decide)

theorem find?_beq_self {l : List Nat} {i : Nat} (h : i ∈ l) :
    l.find? (fun j => j == i) = some i := by
  induction l with
  | nil => simp at h
  | cons x xs ih =>
    by_cases hx : x = i
    · subst hx
      rw [List.find?_cons_of_pos _ (by simp)]
    · have hmem : i ∈ xs := by
        cases h with
        | head => exact absurd rfl hx
        | tail _ h2 => exact h2
      rw [List.find?_cons_of_neg _ (by simp [hx])]
      exact ih hmem

theorem awaitTask_perm (rs : Nat → Metadata) (order : List Nat) (n : Nat)
    (hperm : order.Perm (List.range n)) (i : Nat) (hi : i < n) :
    awaitTask (completionLog order rs) i = .ok (rs i) := by
  have hmem : i ∈ order := hperm.mem_iff.mpr (List.mem_range.mpr hi)
  unfold awaitTask completionLog
  rw [List.find?_map]
  have hcomp : ((fun kv : Nat × Metadata => kv.1 == i) ∘ (fun j => (j, rs j))) =
      fun j => j == i := rfl
  rw [hcomp, find?_beq_self hmem]
  rfl

theorem gpStep_congr (pfx : String) (um : Bool)
    (r1 r2 : Nat → Except PyError Metadata) (f : String) (i : Nat) (st : RunSt)
    (h : r1 i = r2 i) :
    gpStep pfx um r1 f i st = gpStep pfx um r2 f i st := by
  unfold gpStep
  rw [h]

theorem gpLoop_congr (pfx : String) (um : Bool)
    (r1 r2 : Nat → Except PyError Metadata) :
    ∀ (fs : List String) (i : Nat) (st : RunSt),
      (∀ j, j < fs.length → r1 (i + j) = r2 (i + j)) →
      gpLoop pfx um r1 fs i st = gpLoop pfx um r2 fs i st := by
  intro fs
  induction fs with
  | nil => intro i st h; rfl
  | cons f fs ih =>
    intro i st h
    have h0 : r1 i = r2 i := by
      have := h 0 (by simp)
      simpa using this
    have hrest : ∀ j, j < fs.length → r1 ((i + 1) + j) = r2 ((i + 1) + j) := by
      intro j hj
      have := h (j + 1) (by simpa using Nat.succ_lt_succ hj)
      have harith : i + (j + 1) = (i + 1) + j := by omega
      rw [harith] at this
      exact this
    simp only [gpLoop]
    rw [gpStep_congr pfx um r1 r2 f i st h0]
    cases hstep : gpStep pfx um r2 f i st with
    | mk res st1 =>
      cases res with
      | error e => rfl
      | ok tk =>
        simp only []
        rw [ih (i + 1) st1 hrest]

theorem gpStep_ok_track (pfx : String) (rs : Nat → Metadata) (f : String) (i : Nat)
    (st : RunSt) (tk : Track) (st1 : RunSt)
    (h : gpStep pfx true (fun k => .ok (rs k)) f i st = (.ok tk, st1)) :
    buildTrack pfx f (rs i) = .ok tk := by
  unfold gpStep at h
  rw [if_pos rfl] at h
  simp only [] at h
  cases hbt : buildTrack pfx f (rs i) with
  | error e => rw [hbt] at h; simp at h
  | ok tk2 =>
    rw [hbt] at h
    simp only [] at h
    obtain ⟨pb, tr⟩ := st
    cases pb with
    | none =>
      simp at h
      rw [h.1]
    | some b =>
      simp only [] at h
      cases hu : (AsyncProgressBar.update b).2.2 with
      | some e => rw [hu] at h; simp at h
      | none =>
        rw [hu] at h
        simp at h
        rw [h.1]

theorem gpLoop_ok_tracks (pfx : String) (rs : Nat → Metadata) :
    ∀ (fs : List String) (i : Nat) (st : RunSt) (l : List Track),
      (gpLoop pfx true (fun k => .ok (rs k)) fs i st).1 = .ok l →
      l.length = fs.length ∧
        ∀ j, j < fs.length →
          ∃ tk, buildTrack pfx (fs.getD j "") (rs (i + j)) = .ok tk ∧
            l.get? j = some tk := by
  intro fs
  induction fs with
  | nil =>
    intro i st l h
    simp only [gpLoop] at h
    have hl : l = [] := by simpa using h.symm
    subst hl
    exact ⟨rfl, fun j hj => absurd hj (by simp)⟩
  | cons f fs ih =>
    intro i st l h
    simp only [gpLoop] at h
    cases hstep : gpStep pfx true (fun k => .ok (rs k)) f i st with
    | mk res st1 =>
      rw [hstep] at h
      cases res with
      | error e => simp at h
      | ok tk =>
        simp only [] at h
        cases hrest : (gpLoop pfx true (fun k => .ok (rs k)) fs (i + 1) st1).1 with
        | error e => rw [hrest] at h; simp [Except.map] at h
        | ok l2 =>
          rw [hrest] at h
          simp [Except.map] at h
          subst h
          obtain ⟨hlen, hpt⟩ := ih (i + 1) st1 l2 hrest
          constructor
          · simp [hlen]
          · intro j hj
            cases j with
            | zero =>
              refine ⟨tk, ?_, rfl⟩
              have := gpStep_ok_track pfx rs f i st tk st1 hstep
              simpa using this
            | succ j2 =>
              have hj2 : j2 < fs.length := by simpa using hj
              obtain ⟨tk2, hbt, hget⟩ := hpt j2 hj2
              refine ⟨tk2, ?_, ?_⟩
              · have harith : i + (j2 + 1) = (i + 1) + j2 := by omega
                rw [harith]
                simpa using hbt
              · simpa using hget

/-- Claim C1 (confirmed): the consumption loop awaits the tasks in
discovery order (`zip(media_files, metadata_tasks)`, line 203), so the
playlist is the same whatever order the tasks completed in — awaiting
task `i` always retrieves ordinal `i`'s result — and in the emitted
sequence the track at position `i` is built from the file of ordinal
`i` and its own result: position `N` precedes position `N + 1`. -/
theorem c1_discovery_order (pfx : String) (isatty : Bool) (files : List String)
    (rs : Nat → Metadata) (order : List Nat)
    (hperm : order.Perm (List.range files.length)) :
    generate_playlist pfx true isatty files (awaitTask (completionLog order rs)) =
        generate_playlist pfx true isatty files (fun i => .ok (rs i)) ∧
      ∀ l, (generate_playlist pfx true isatty files (fun i => .ok (rs i))).1 = .ok l →
        l.length = files.length ∧
          ∀ i, i < files.length →
            ∃ tk, buildTrack pfx (files.getD i "") (rs i) = .ok tk ∧
              l.get? i = some tk := by
  constructor
  · unfold generate_playlist
    congr 1
    exact gpLoop_congr pfx true (awaitTask (completionLog order rs))
      (fun i => .ok (rs i)) files 0
      ⟨if isatty then some (AsyncProgressBar.start files.length) else none, []⟩
      (fun j hj => by
        simpa using awaitTask_perm rs order files.length hperm j (by simpa using hj))
  · intro l h
    unfold generate_playlist at h
    rw [gpFinish_fst] at h
    obtain ⟨hlen, hpt⟩ := gpLoop_ok_tracks pfx rs files 0
      ⟨if isatty then some (AsyncProgressBar.start files.length) else none, []⟩ l h
    exact ⟨hlen, fun i hi => by simpa using hpt i hi⟩

/-- Witness for C1: two files whose tasks complete in reversed order. -/
theorem c1_witness :
    generate_playlist "" true false ["a", "b"]
        (awaitTask (completionLog [1, 0] (fun _ => Metadata.empty))) =
      generate_playlist "" true false ["a", "b"] (fun _ => .ok Metadata.empty) :=
  (c1_discovery_order "" false ["a", "b"] (fun _ => Metadata.empty) [1, 0]
    (by decide)).1
